import Mathlib

/-!
Verification of the ComfyUI model-download CLI (Civitai / Hugging Face
integration modules) against its specification.

Strings from the Python source are modelled as `List Char` (the character
sequence of the Python `str`); `Str` abbreviates this.  Python's
`str.lower()` is modelled by mapping `Char.toLower` over the characters,
and Python's substring test `kw in s` by `containsSub`.
-/

abbrev Str := List Char

/-- Python's `str.lower()` on the character sequence. -/
def strLower (s : Str) : Str := s.map Char.toLower

/-- Python's substring test `pat in s` (true when `pat` occurs contiguously
inside `s`; the empty pattern is contained in every string). -/
def containsSub (pat s : Str) : Bool :=
  match s with
  | [] => pat.isPrefixOf []
  | _ :: rest => pat.isPrefixOf s || containsSub pat rest

/-- Python's `any(kw in s for kw in kws)`. -/
def containsAny (s : Str) (kws : List Str) : Bool :=
  kws.any (fun kw => containsSub kw s)

namespace CivitaiModelManager

/-- `CivitaiModelManager.MODEL_TYPE_MAPPING`
(src/civitai_integration.py lines 175-189): static mapping of Civitai
model types to ComfyUI directories, in source order. -/
def MODEL_TYPE_MAPPING : List (Str × Str) :=
  [ ("Checkpoint".data, "checkpoints".data),
    ("LORA".data, "loras".data),
    ("LoCon".data, "loras".data),
    ("TextualInversion".data, "embeddings".data),
    ("Hypernetwork".data, "hypernetworks".data),
    ("AestheticGradient".data, "embeddings".data),
    ("Controlnet".data, "controlnet".data),
    ("Poses".data, "controlnet".data),
    ("VAE".data, "vae".data),
    ("Upscaler".data, "upscale_models".data),
    ("MotionModule".data, "motion_modules".data),
    ("Wildcards".data, "wildcards".data),
    ("Other".data, "checkpoints".data) ]

/-- `CivitaiModelManager.determine_model_type`
(src/civitai_integration.py lines 207-230): first the direct
`MODEL_TYPE_MAPPING` lookup; otherwise the ordered filename-keyword
fallback, defaulting to `checkpoints`. -/
def determine_model_type (civitai_type : Str) (filename : Str) : Str :=
  match MODEL_TYPE_MAPPING.lookup civitai_type with
  | some dir => dir
  | none =>
    let filename_lower := strLower filename
    if containsAny filename_lower ["lora".data, "lycoris".data] then "loras".data
    else if containsAny filename_lower ["vae".data] then "vae".data
    else if containsAny filename_lower ["controlnet".data, "control".data] then "controlnet".data
    else if containsAny filename_lower ["upscaler".data, "upscale".data, "esrgan".data] then
      "upscale_models".data
    else if containsAny filename_lower ["embedding".data, "textual".data] then "embeddings".data
    else if containsAny filename_lower ["hypernetwork".data] then "hypernetworks".data
    else "checkpoints".data

/-- The set of destination categories that can ever be produced: the values
of `MODEL_TYPE_MAPPING` together with the fallback categories. -/
def validCategories : List Str :=
  [ "checkpoints".data, "loras".data, "embeddings".data, "hypernetworks".data,
    "controlnet".data, "vae".data, "upscale_models".data, "motion_modules".data,
    "wildcards".data ]

end CivitaiModelManager

namespace CivitaiAPI

/-- The query parameters built by `CivitaiAPI.search_models`
(src/civitai_integration.py lines 64-82) for the request to the remote
search endpoint.  Python integers are modelled as `Int`. -/
structure SearchParams where
  query : Str
  limit : Int
  page : Int
  types : Option Str
deriving DecidableEq

/-- `CivitaiAPI.search_models` parameter construction
(src/civitai_integration.py lines 67-73): the limit sent is
`min(limit, 100)` ("Civitai has a max limit"), `page` is 1, and `types`
is present exactly when a model type was given. -/
def search_models_params (query : Str) (limit : Int) (model_type : Option Str) : SearchParams :=
  { query := query, limit := min limit 100, page := 1, types := model_type }

end CivitaiAPI

namespace ModelDownloader

/-- `ModelDownloader.verify_file_hash` (src/download_models.py lines
116-124): compares the computed SHA-256 hex digest of the file with the
expected digest string, lowercasing both.  The first argument models
`hashlib.sha256(f.read()).hexdigest()` for the file at `file_path`. -/
def verify_file_hash (file_hash expected_hash : Str) : Bool :=
  strLower file_hash == strLower expected_hash

end ModelDownloader

namespace AdvancedModelDownloader

/-- `AdvancedModelDownloader.verify_file_hash`
(src/download_models_advanced.py lines 218-226): identical comparison. -/
def verify_file_hash (file_hash expected_hash : Str) : Bool :=
  strLower file_hash == strLower expected_hash

end AdvancedModelDownloader

namespace CivitaiModelManager

/-- `CivitaiModelManager.get_model_directory`
(src/civitai_integration.py lines 196-205).  The directory-configuration
collaborator `folder_paths` is ComfyUI code not under src/ and is modelled
from the spec as an association list `cfg` from category name to the list of
configured filesystem roots (`folder_names_and_paths` membership and
`get_folder_paths` are both lookups into it); a raised `ValueError` is
modelled as `Except.error` carrying the message. -/
def get_model_directory (cfg : List (Str × List Str)) (model_type : Str) : Except Str Str :=
  match cfg.lookup model_type with
  | none => .error ("Unknown model type: ".data ++ model_type)
  | some paths =>
    match paths with
    | [] => .error ("No directory configured for model type: ".data ++ model_type)
    | p :: _ => .ok p

end CivitaiModelManager

namespace HuggingFaceModelManager

/-- `HuggingFaceModelManager.get_model_directory`
(src/huggingface_integration.py lines 218-224):
`folder_paths.folder_names_and_paths[model_type][0][0]` with a
`KeyError` handler that falls back to the `'checkpoints'` entry.  A missing
key is `lookup = none` (the handled `KeyError`); indexing `[0]` into an
empty path list is the unhandled `IndexError`. -/
def get_model_directory (cfg : List (Str × List Str)) (model_type : Str) : Except Str Str :=
  match cfg.lookup model_type with
  | some [] => .error "IndexError".data
  | some (p :: _) => .ok p
  | none =>
    match cfg.lookup "checkpoints".data with
    | some [] => .error "IndexError".data
    | some (p :: _) => .ok p
    | none => .error "KeyError".data

end HuggingFaceModelManager

namespace HuggingFaceModelManager

/-- One entry of `segments_info['files']` as built by
`detect_segmented_models` (src/huggingface_integration.py lines 206-210). -/
structure SegEntry where
  file : Str
  segment : Nat
  total : Nat
deriving DecidableEq

/-- The member-download loop of
`HuggingFaceModelManager.download_segmented_model`
(src/huggingface_integration.py lines 342-356), instrumented with the list
of member files on which `download_file` was invoked (`attempted`).
`dl f` models the success of `self.download_file(repo_id, f, destination,
branch)` for member filename `f`; `downloaded` models the
`downloaded_files` accumulator, i.e. the member files now present on disk —
the loop only ever appends to it, never removes.  On a member failure the
function returns `False` immediately, skipping the remaining members. -/
def segmentLoop (dl : Str → Bool) (files : List SegEntry)
    (attempted downloaded : List Str) : List Str × List Str × Bool :=
  match files with
  | [] => (attempted, downloaded, true)
  | f :: rest =>
    if dl f.file then
      segmentLoop dl rest (attempted ++ [f.file]) (downloaded ++ [f.file])
    else
      (attempted ++ [f.file], downloaded, false)

/-- `HuggingFaceModelManager.download_segmented_model`
(src/huggingface_integration.py lines 324-368): download the group's
members in list order; on any member failure report `False` at once;
otherwise report success only if the number of downloaded segments equals
`total_segments`. -/
def download_segmented_model (dl : Str → Bool) (total_segments : Nat)
    (files : List SegEntry) : List Str × List Str × Bool :=
  match segmentLoop dl files [] [] with
  | (att, dls, ok) => (att, dls, ok && (dls.length == total_segments))

/-- The per-file loop of `HuggingFaceModelManager.download_model` in the
non-segmented case (src/huggingface_integration.py lines 427-451),
instrumented with the per-file outcome trace `results`: each model file is
attempted in order; a failure sets `success = False` and the loop continues
with the next file.  Saving metadata for the first main model file
(lines 444-446) affects neither the control flow nor the outcome and is
not modelled. -/
def directLoop (dl : Str → Bool) (files : List Str) (success : Bool)
    (results : List (Str × Bool)) : List (Str × Bool) × Bool :=
  match files with
  | [] => (results, success)
  | f :: rest =>
    if dl f then directLoop dl rest success (results ++ [(f, true)])
    else directLoop dl rest false (results ++ [(f, false)])

/-- The non-segmented branch of `download_model`, starting with
`success = True` and an empty trace. -/
def download_model_files (dl : Str → Bool) (files : List Str) :
    List (Str × Bool) × Bool :=
  directLoop dl files true []

end HuggingFaceModelManager

/-- A JSON value, as produced by `json.dump` and consumed by `json.load`.
Only the shapes used by the metadata sidecars are modelled. -/
inductive JValue where
  | null : JValue
  | bool (b : Bool) : JValue
  | num (n : Int) : JValue
  | str (s : Str) : JValue
  | arr (xs : List JValue) : JValue

namespace CivitaiModelManager

/-- The provenance record assembled by `CivitaiModelManager._save_metadata`
(src/civitai_integration.py lines 389-402).  Fields read with `.get` and no
default may be absent (`Option`); fields read with a default are always
present. -/
structure Metadata where
  civitai_model_id : Option Int
  civitai_version_id : Option Int
  model_name : Option Str
  model_type : Option Str
  version_name : Option Str
  file_name : Option Str
  file_size : Int
  download_date : Str
  description : Str
  tags : List Str
  creator : Str
  nsfw : Bool
deriving DecidableEq

/-- JSON encoding of an optional integer field (`None` becomes `null`). -/
def encodeOptInt : Option Int → JValue
  | none => .null
  | some n => .num n

/-- JSON encoding of an optional string field (`None` becomes `null`). -/
def encodeOptStr : Option Str → JValue
  | none => .null
  | some s => .str s

/-- The JSON object written by `_save_metadata` via `json.dump(metadata, f)`
(src/civitai_integration.py lines 404-407), key for key in source order. -/
def Metadata.toJson (m : Metadata) : List (Str × JValue) :=
  [ ("civitai_model_id".data, encodeOptInt m.civitai_model_id),
    ("civitai_version_id".data, encodeOptInt m.civitai_version_id),
    ("model_name".data, encodeOptStr m.model_name),
    ("model_type".data, encodeOptStr m.model_type),
    ("version_name".data, encodeOptStr m.version_name),
    ("file_name".data, encodeOptStr m.file_name),
    ("file_size".data, .num m.file_size),
    ("download_date".data, .str m.download_date),
    ("description".data, .str m.description),
    ("tags".data, .arr (m.tags.map JValue.str)),
    ("creator".data, .str m.creator),
    ("nsfw".data, .bool m.nsfw) ]

/-- Reading an optional integer field back from JSON. -/
def decodeOptInt : JValue → Option (Option Int)
  | .null => some none
  | .num n => some (some n)
  | _ => none

/-- Reading an optional string field back from JSON. -/
def decodeOptStr : JValue → Option (Option Str)
  | .null => some none
  | .str s => some (some s)
  | _ => none

/-- Reading a mandatory integer field back from JSON. -/
def decodeInt : JValue → Option Int
  | .num n => some n
  | _ => none

/-- Reading a mandatory string field back from JSON. -/
def decodeStr : JValue → Option Str
  | .str s => some s
  | _ => none

/-- Reading a boolean field back from JSON. -/
def decodeBool : JValue → Option Bool
  | .bool b => some b
  | _ => none

/-- Reading a list of strings back from JSON. -/
def decodeStrList : List JValue → Option (List Str)
  | [] => some []
  | .str s :: rest => (decodeStrList rest).map (s :: ·)
  | _ => none

/-- Reading a string-list field back from JSON. -/
def decodeTags : JValue → Option (List Str)
  | .arr xs => decodeStrList xs
  | _ => none

/-- Parsing the sidecar JSON object back into the provenance record (the
reader's view of the dict returned by `json.load`). -/
def Metadata.fromJson (j : List (Str × JValue)) : Option Metadata :=
  ((j.lookup "civitai_model_id".data).bind decodeOptInt).bind fun mid =>
  ((j.lookup "civitai_version_id".data).bind decodeOptInt).bind fun vid =>
  ((j.lookup "model_name".data).bind decodeOptStr).bind fun mname =>
  ((j.lookup "model_type".data).bind decodeOptStr).bind fun mtype =>
  ((j.lookup "version_name".data).bind decodeOptStr).bind fun vname =>
  ((j.lookup "file_name".data).bind decodeOptStr).bind fun fname =>
  ((j.lookup "file_size".data).bind decodeInt).bind fun fsize =>
  ((j.lookup "download_date".data).bind decodeStr).bind fun ddate =>
  ((j.lookup "description".data).bind decodeStr).bind fun descr =>
  ((j.lookup "tags".data).bind decodeTags).bind fun tags =>
  ((j.lookup "creator".data).bind decodeStr).bind fun creator =>
  ((j.lookup "nsfw".data).bind decodeBool).bind fun nsfw =>
  some { civitai_model_id := mid, civitai_version_id := vid, model_name := mname,
         model_type := mtype, version_name := vname, file_name := fname,
         file_size := fsize, download_date := ddate, description := descr,
         tags := tags, creator := creator, nsfw := nsfw }

/-- The sidecar path `f"{file_path}.civitai.json"`
(src/civitai_integration.py lines 405 and 449). -/
def metadataPath (file_path : Str) : Str := file_path ++ ".civitai.json".data

/-- A file-system fragment holding JSON documents, newest write first. -/
abbrev JsonStore := List (Str × List (Str × JValue))

/-- `CivitaiModelManager._save_metadata`
(src/civitai_integration.py lines 386-410): serialize the record and write
it to the sidecar of `file_path`. -/
def save_metadata (fs : JsonStore) (file_path : Str) (m : Metadata) : JsonStore :=
  (metadataPath file_path, m.toJson) :: fs

/-- `CivitaiModelManager.get_model_metadata`
(src/civitai_integration.py lines 447-456): if the sidecar of `file_path`
exists, parse it back; otherwise `None`. -/
def get_model_metadata (fs : JsonStore) (file_path : Str) : Option Metadata :=
  match fs.lookup (metadataPath file_path) with
  | none => none
  | some j => Metadata.fromJson j

end CivitaiModelManager

/-- A concrete directory configuration with two known categories. -/
def sampleFolderConfig : List (Str × List Str) :=
  [("checkpoints".data, ["/comfy/models/checkpoints".data]),
   ("vae".data, ["/comfy/models/vae".data])]

/-- The numeric value of a digit string, as `int()` reads it. -/
def digitsVal (ds : Str) : Nat := ds.foldl (fun a c => 10 * a + (c.toNat - '0'.toNat)) 0

namespace HuggingFaceModelManager

/-- The segment-naming grammar of `detect_segmented_models`
(src/huggingface_integration.py line 189): `re.match` of
`(.+)-(\d{5})-of-(\d{5})\.([^.]+)$` on the filename, returning
`(base_name, segment_num, total_segments, extension)`.  Because
`[^.]+$` forbids dots in the extension and the two digit runs have fixed
width 5, the regex decomposition is unique: the extension is the nonempty
suffix after the last dot, the 15 characters before that dot are
`-ddddd-of-ddddd`, and `base_name` is the nonempty remainder. -/
def parseSegmentName (file : Str) : Option (Str × Nat × Nat × Str) :=
  let r := file.reverse
  let extR := r.takeWhile (fun c => c ≠ '.')
  match r.dropWhile (fun c => c ≠ '.') with
  | '.' :: beforeR =>
    if extR.isEmpty then none
    else
      match beforeR with
      | e5 :: e4 :: e3 :: e2 :: e1 :: '-' :: 'f' :: 'o' :: '-' ::
          s5 :: s4 :: s3 :: s2 :: s1 :: '-' :: baseR =>
        if (e1.isDigit && e2.isDigit && e3.isDigit && e4.isDigit && e5.isDigit &&
            s1.isDigit && s2.isDigit && s3.isDigit && s4.isDigit && s5.isDigit &&
            !baseR.isEmpty) then
          some (baseR.reverse, digitsVal [s1, s2, s3, s4, s5],
                digitsVal [e1, e2, e3, e4, e5], extR.reverse)
        else none
      | _ => none
  | _ => none

/-- One group value of the dict built by `detect_segmented_models`
(src/huggingface_integration.py lines 200-204). -/
structure SegGroup where
  total_segments : Nat
  extension : Str
  files : List SegEntry
deriving DecidableEq

/-- The dict update of `detect_segmented_models`
(src/huggingface_integration.py lines 199-210): if `base` is a new key it
is appended with `total` and `ext` taken from the current file; otherwise
the existing group - keyed by `base_name` alone - receives the entry,
keeping its stored `total_segments` and `extension`. -/
def addToGroup (acc : List (Str × SegGroup)) (base : Str) (total : Nat) (ext : Str)
    (e : SegEntry) : List (Str × SegGroup) :=
  match acc with
  | [] => [(base, { total_segments := total, extension := ext, files := [e] })]
  | (k, g) :: rest =>
    if k == base then (k, { g with files := g.files ++ [e] }) :: rest
    else (k, g) :: addToGroup rest base total ext e

/-- The main loop of `detect_segmented_models`
(src/huggingface_integration.py lines 191-210): files that do not match the
grammar are skipped; matching files are recorded in their base-name
group. -/
def detectLoop (files : List Str) (acc : List (Str × SegGroup)) : List (Str × SegGroup) :=
  match files with
  | [] => acc
  | f :: rest =>
    match parseSegmentName f with
    | none => detectLoop rest acc
    | some (base, seg, total, ext) =>
        detectLoop rest (addToGroup acc base total ext ⟨f, seg, total⟩)

/-- Stable insertion of an entry after all entries of smaller or equal
segment number. -/
def insertSorted (e : SegEntry) : List SegEntry → List SegEntry
  | [] => [e]
  | x :: xs => if e.segment < x.segment then e :: x :: xs else x :: insertSorted e xs

/-- The stable ascending sort by `segment`
(src/huggingface_integration.py lines 213-214), modelling Python's stable
`list.sort(key=lambda x: x['segment'])`. -/
def sortBySegment (l : List SegEntry) : List SegEntry :=
  l.foldl (fun acc e => insertSorted e acc) []

/-- `HuggingFaceModelManager.detect_segmented_models`
(src/huggingface_integration.py lines 184-216): group matching files by
`base_name`, then sort every group's members by segment number. -/
def detect_segmented_models (files : List Str) : List (Str × SegGroup) :=
  (detectLoop files []).map (fun kg => (kg.1, { kg.2 with files := sortBySegment kg.2.files }))

end HuggingFaceModelManager

/-- Python whitespace as stripped by `str.strip()`. -/
def isPySpace (c : Char) : Bool :=
  c == ' ' || c == '\t' || c == '\n' || c == '\r' || c == '\x0b' || c == '\x0c'

/-- `url.strip()`: removes leading and trailing whitespace. -/
def pyStrip (s : Str) : Str :=
  (((s.dropWhile isPySpace).reverse.dropWhile isPySpace)).reverse

/-- `url.rstrip('/')`: removes trailing slashes. -/
def rstripSlash (s : Str) : Str :=
  (s.reverse.dropWhile (fun c => c == '/')).reverse

/-- Match a literal pattern at the start of `s`, returning the remainder. -/
def stripPfx (pat s : Str) : Option Str :=
  if pat.isPrefixOf s then some (s.drop pat.length) else none

namespace CivitaiURLParser

/-- The result dict of `CivitaiURLParser.parse_civitai_url`
(src/civitai_integration.py lines 125-158). -/
structure URLInfo where
  model_id : Option Nat
  version_id : Option Nat
  url_type : Str
deriving DecidableEq

/-- The version pattern `civitai\.com/models/(\d+)/[^/]+/versions/(\d+)`
(src/civitai_integration.py line 119) matched at the start of `s`.  The
regex is deterministic at a fixed position: the first `\d+` is a maximal
nonempty digit run that must be followed by `/`, `[^/]+` is the maximal
nonempty slash-free run that must be followed by the literal
`/versions/`, and the final `\d+` is a maximal nonempty digit run. -/
def matchVersionAt (s : Str) : Option (Nat × Nat) :=
  (stripPfx "civitai.com/models/".data s).bind fun r1 =>
    let ds := r1.takeWhile Char.isDigit
    let r2 := r1.dropWhile Char.isDigit
    if ds.isEmpty then none
    else if r2.head? != some '/' then none
    else
      let r3 := r2.tail
      let seg := r3.takeWhile (fun c => !(c == '/'))
      let r4 := r3.dropWhile (fun c => !(c == '/'))
      if seg.isEmpty then none
      else
        (stripPfx "/versions/".data r4).bind fun r5 =>
          let vs := r5.takeWhile Char.isDigit
          if vs.isEmpty then none
          else some (digitsVal ds, digitsVal vs)

/-- `re.search` for the version pattern: leftmost position whose match
attempt succeeds. -/
def searchVersion : Str → Option (Nat × Nat)
  | [] => none
  | c :: rest =>
    match matchVersionAt (c :: rest) with
    | some r => some r
    | none => searchVersion rest

/-- The tail group `modelVersionId=(\d+)` of the model pattern matched at
the start of `t`. -/
def versionIdAt (t : Str) : Option Nat :=
  match stripPfx "modelVersionId=".data t with
  | none => none
  | some r =>
    match r.takeWhile Char.isDigit with
    | [] => none
    | ds => some (digitsVal ds)

/-- `\?.*modelVersionId=(\d+)` after the literal `?`: with `.*` greedy and
`.` not matching a newline, the captured group belongs to the last
occurrence of `modelVersionId=` that is followed by at least one digit and
is reachable without crossing a newline. -/
def findLastVersionId : Str → Option Nat
  | [] => none
  | c :: rest =>
    if c == '\n' then none
    else
      match findLastVersionId rest with
      | some v => some v
      | none => versionIdAt (c :: rest)

/-- The model pattern
`civitai\.com/models/(\d+)(?:/[^/?]*)?(?:\?.*modelVersionId=(\d+))?`
(src/civitai_integration.py line 134) matched at the start of `s`: after
the mandatory digits, the optional slug segment is consumed greedily (it
cannot extend past a `/` or `?`), and the optional query group captures a
version id only when the remainder starts with `?`. -/
def matchModelAt (s : Str) : Option (Nat × Option Nat) :=
  match stripPfx "civitai.com/models/".data s with
  | none => none
  | some r1 =>
    match r1.takeWhile Char.isDigit with
    | [] => none
    | ds =>
      let r2 := r1.dropWhile Char.isDigit
      let r3 := match r2 with
                | '/' :: t => t.dropWhile (fun c => !(c == '/') && !(c == '?'))
                | _ => r2
      let v := match r3 with
               | '?' :: t => findLastVersionId t
               | _ => none
      some (digitsVal ds, v)

/-- `re.search` for the model pattern. -/
def searchModel : Str → Option (Nat × Option Nat)
  | [] => none
  | c :: rest =>
    match matchModelAt (c :: rest) with
    | some r => some r
    | none => searchModel rest

/-- The download pattern `civitai\.com/api/download/models/(\d+)`
(src/civitai_integration.py line 149) matched at the start of `s`. -/
def matchDownloadAt (s : Str) : Option Nat :=
  match stripPfx "civitai.com/api/download/models/".data s with
  | none => none
  | some r =>
    match r.takeWhile Char.isDigit with
    | [] => none
    | ds => some (digitsVal ds)

/-- `re.search` for the download pattern. -/
def searchDownload : Str → Option Nat
  | [] => none
  | c :: rest =>
    match matchDownloadAt (c :: rest) with
    | some r => some r
    | none => searchDownload rest

/-- `CivitaiURLParser.parse_civitai_url`
(src/civitai_integration.py lines 110-164): normalize the URL
(`strip()` then `rstrip('/')`), then try the version pattern first, the
model pattern second and the download pattern last, returning the result
dict of the first pattern that matches anywhere in the string. -/
def parse_civitai_url (url : Str) : Option URLInfo :=
  let u := rstripSlash (pyStrip url)
  match searchVersion u with
  | some (m, v) => some ⟨some m, some v, "version".data⟩
  | none =>
    match searchModel u with
    | some (m, v) => some ⟨some m, v, "model".data⟩
    | none =>
      match searchDownload u with
      | some v => some ⟨none, some v, "download".data⟩
      | none => none

/-- A version-specific URL `https://civitai.com/models/<id>/<slug>/versions/<vid>`
built from its digit strings and slug. -/
def mkVersionURL (d1 slug d2 : Str) : Str :=
  "https://civitai.com/models/".data ++ (d1 ++ ('/' :: (slug ++ ("/versions/".data ++ d2))))

end CivitaiURLParser

/-- A successful association-list lookup returns one of the stored values. -/
theorem lookup_mem_values {α β : Type} [BEq α] (l : List (α × β)) (k : α) (v : β)
    (h : l.lookup k = some v) : v ∈ l.map Prod.snd := by
  induction l with
  | nil => simp [List.lookup] at h
  | cons p t ih =>
    rw [List.lookup] at h
    by_cases hk : (k == p.1) = true
    · simp [hk] at h
      simp [← h]
    · simp [hk] at h
      simp [ih h]

open CivitaiModelManager in
/-- **C1.** Classification is total and the declared type tag always wins:
`determine_model_type` always yields exactly one of the fixed destination
categories (it cannot fail), and whenever the Civitai type tag is a key of
`MODEL_TYPE_MAPPING`, the table's entry is returned regardless of the
filename. -/
theorem determine_model_type_total_and_table_wins (tag fn : Str) :
    determine_model_type tag fn ∈ validCategories ∧
    ∀ d, MODEL_TYPE_MAPPING.lookup tag = some d → determine_model_type tag fn = d := by
  refine ⟨?_, ?_⟩
  · rcases h : MODEL_TYPE_MAPPING.lookup tag with _ | d
    · unfold determine_model_type
      rw [h]
      dsimp only
      split_ifs <;> decide
    · unfold determine_model_type
      rw [h]
      have hv := lookup_mem_values _ _ _ h
      have hsub : ∀ v ∈ MODEL_TYPE_MAPPING.map Prod.snd, v ∈ validCategories := by decide
      exact hsub d hv
  · intro d' hd'
    unfold determine_model_type
    rw [hd']

open CivitaiModelManager in
/-- **C1 witness.** At the concrete pair `("VAE", "my-checkpoint.safetensors")`
the result is in the category set and equals the table entry `"vae"`. -/
theorem determine_model_type_total_and_table_wins_witness :
    determine_model_type "VAE".data "my-checkpoint.safetensors".data ∈ validCategories ∧
    determine_model_type "VAE".data "my-checkpoint.safetensors".data = "vae".data :=
  ⟨(determine_model_type_total_and_table_wins "VAE".data "my-checkpoint.safetensors".data).1,
   (determine_model_type_total_and_table_wins "VAE".data "my-checkpoint.safetensors".data).2
     "vae".data (by decide)⟩

open CivitaiModelManager in
/-- **C3 counterexample.** The filename `"my-vae-lora.safetensors"` contains
both the vae keyword and the lora keyword, yet with an unmapped type tag the
code classifies it as `"loras"`, not `"vae"`: the lora group is tested before
the vae group, contradicting the claimed vae-before-lora order. -/
theorem fallback_vae_before_lora_cex :
    containsSub "vae".data (strLower "my-vae-lora.safetensors".data) = true ∧
    containsSub "lora".data (strLower "my-vae-lora.safetensors".data) = true ∧
    CivitaiModelManager.MODEL_TYPE_MAPPING.lookup "UnknownType".data = none ∧
    determine_model_type "UnknownType".data "my-vae-lora.safetensors".data = "loras".data ∧
    "loras".data ≠ "vae".data := by
  refine ⟨by decide, by decide, by decide, by decide, by decide⟩

open CivitaiModelManager in
/-- **C3 (amended).** When the type tag is absent from the static table,
classification lowercases the filename and tests the keyword groups in the
order lora/lycoris, vae, controlnet/control, upscaler/upscale/esrgan,
embedding/textual, hypernetwork, with `checkpoints` as default; the first
matching group wins, so a filename containing both a vae keyword and a lora
keyword resolves to `"loras"`. -/
theorem determine_model_type_fallback_order (tag fn : Str)
    (htag : MODEL_TYPE_MAPPING.lookup tag = none) :
    (containsAny (strLower fn) ["lora".data, "lycoris".data] = true →
       determine_model_type tag fn = "loras".data) ∧
    (containsAny (strLower fn) ["lora".data, "lycoris".data] = false →
     containsAny (strLower fn) ["vae".data] = true →
       determine_model_type tag fn = "vae".data) ∧
    (containsAny (strLower fn) ["lora".data, "lycoris".data] = false →
     containsAny (strLower fn) ["vae".data] = false →
     containsAny (strLower fn) ["controlnet".data, "control".data] = true →
       determine_model_type tag fn = "controlnet".data) ∧
    (containsAny (strLower fn) ["lora".data, "lycoris".data] = false →
     containsAny (strLower fn) ["vae".data] = false →
     containsAny (strLower fn) ["controlnet".data, "control".data] = false →
     containsAny (strLower fn) ["upscaler".data, "upscale".data, "esrgan".data] = true →
       determine_model_type tag fn = "upscale_models".data) ∧
    (containsAny (strLower fn) ["lora".data, "lycoris".data] = false →
     containsAny (strLower fn) ["vae".data] = false →
     containsAny (strLower fn) ["controlnet".data, "control".data] = false →
     containsAny (strLower fn) ["upscaler".data, "upscale".data, "esrgan".data] = false →
     containsAny (strLower fn) ["embedding".data, "textual".data] = true →
       determine_model_type tag fn = "embeddings".data) ∧
    (containsAny (strLower fn) ["lora".data, "lycoris".data] = false →
     containsAny (strLower fn) ["vae".data] = false →
     containsAny (strLower fn) ["controlnet".data, "control".data] = false →
     containsAny (strLower fn) ["upscaler".data, "upscale".data, "esrgan".data] = false →
     containsAny (strLower fn) ["embedding".data, "textual".data] = false →
     containsAny (strLower fn) ["hypernetwork".data] = true →
       determine_model_type tag fn = "hypernetworks".data) ∧
    (containsAny (strLower fn) ["lora".data, "lycoris".data] = false →
     containsAny (strLower fn) ["vae".data] = false →
     containsAny (strLower fn) ["controlnet".data, "control".data] = false →
     containsAny (strLower fn) ["upscaler".data, "upscale".data, "esrgan".data] = false →
     containsAny (strLower fn) ["embedding".data, "textual".data] = false →
     containsAny (strLower fn) ["hypernetwork".data] = false →
       determine_model_type tag fn = "checkpoints".data) ∧
    (containsSub "vae".data (strLower fn) = true →
     containsSub "lora".data (strLower fn) = true →
       determine_model_type tag fn = "loras".data) := by
  unfold determine_model_type
  rw [htag]
  refine ⟨?_, ?_, ?_, ?_, ?_, ?_, ?_, ?_⟩
  · intro h1; simp [h1]
  · intro h1 h2; simp [h1, h2]
  · intro h1 h2 h3; simp [h1, h2, h3]
  · intro h1 h2 h3 h4; simp [h1, h2, h3, h4]
  · intro h1 h2 h3 h4 h5; simp [h1, h2, h3, h4, h5]
  · intro h1 h2 h3 h4 h5 h6; simp [h1, h2, h3, h4, h5, h6]
  · intro h1 h2 h3 h4 h5 h6; simp [h1, h2, h3, h4, h5, h6]
  · intro hv hl
    have h1 : containsAny (strLower fn) ["lora".data, "lycoris".data] = true := by
      simp [containsAny]
      exact Or.inl hl
    simp [h1]

open CivitaiModelManager in
/-- **C3 (amended) witness.** The order theorem applied at the concrete
collision filename `"my-vae-lora.safetensors"` with unmapped tag. -/
theorem determine_model_type_fallback_order_witness :
    determine_model_type "UnknownType".data "my-vae-lora.safetensors".data = "loras".data :=
  (determine_model_type_fallback_order "UnknownType".data "my-vae-lora.safetensors".data
    (by decide)).2.2.2.2.2.2.2 (by decide) (by decide)

open CivitaiAPI in
/-- **C9.** The limit actually sent to the search endpoint is
`min(L, 100)`: it never exceeds 100, and for `L ≤ 100` it is exactly `L`. -/
theorem search_models_limit_capped (q : Str) (L : Int) (t : Option Str) :
    (search_models_params q L t).limit = min L 100 ∧
    (search_models_params q L t).limit ≤ 100 ∧
    (L ≤ 100 → (search_models_params q L t).limit = L) := by
  refine ⟨rfl, min_le_right L 100, fun h => min_eq_left h⟩

open CivitaiAPI in
/-- **C9 witness.** At the concrete limits 7 and (separately derivable)
any value, the sent limit is 7 for a request of 7. -/
theorem search_models_limit_capped_witness :
    (search_models_params "flux".data 7 none).limit = 7 :=
  (search_models_limit_capped "flux".data 7 none).2.2 (by decide)

/-- **C10.** Hash verification is case-insensitive in both downloaders:
verification succeeds iff the two digest strings are equal after
lowercasing; and since `hexdigest()` output is already lowercase
(hypothesis `hlow`), an expected hash of any letter case is accepted
exactly when its lowercase form equals the file's digest. -/
theorem verify_file_hash_case_insensitive (d e : Str) :
    ModelDownloader.verify_file_hash d e = AdvancedModelDownloader.verify_file_hash d e ∧
    (ModelDownloader.verify_file_hash d e = true ↔ strLower d = strLower e) ∧
    (strLower d = d → (ModelDownloader.verify_file_hash d e = true ↔ strLower e = d)) := by
  refine ⟨rfl, ?_, ?_⟩
  · unfold ModelDownloader.verify_file_hash
    exact beq_iff_eq
  · intro hlow
    unfold ModelDownloader.verify_file_hash
    rw [hlow]
    rw [show (strLower e = d) ↔ (d = strLower e) from eq_comm]
    exact beq_iff_eq

/-- **C10 witness.** The uppercase expected digest `"AB12"` is accepted for
the (lowercase) computed digest `"ab12"`. -/
theorem verify_file_hash_case_insensitive_witness :
    ModelDownloader.verify_file_hash "ab12".data "AB12".data = true :=
  ((verify_file_hash_case_insensitive "ab12".data "AB12".data).2.2 (by decide)).mpr (by decide)

open HuggingFaceModelManager in
/-- Loop invariant for `segmentLoop`: with every member of `pre`
succeeding and `bad` failing, the loop attempts exactly `pre` and then
`bad`, keeps exactly `pre`'s files downloaded, and reports failure. -/
theorem segmentLoop_fail (dl : Str → Bool) (pre : List SegEntry) (bad : SegEntry)
    (post : List SegEntry) (att dls : List Str)
    (hpre : pre.all (fun f => dl f.file) = true) (hbad : dl bad.file = false) :
    segmentLoop dl (pre ++ bad :: post) att dls =
      (att ++ pre.map SegEntry.file ++ [bad.file], dls ++ pre.map SegEntry.file, false) := by
  induction pre generalizing att dls with
  | nil => simp [segmentLoop, hbad]
  | cons f rest ih =>
    rw [List.all_cons, Bool.and_eq_true] at hpre
    rw [List.cons_append]
    rw [show segmentLoop dl (f :: (rest ++ bad :: post)) att dls
          = segmentLoop dl (rest ++ bad :: post) (att ++ [f.file]) (dls ++ [f.file]) from by
        simp [segmentLoop, hpre.1]]
    rw [ih (att ++ [f.file]) (dls ++ [f.file]) hpre.2]
    simp

open HuggingFaceModelManager in
/-- **C4.** Segment-group failure is fail-fast and non-destructive: if the
members before `bad` all succeed and `bad` fails, `download_segmented_model`
reports the group as failed, attempts exactly the members up to and
including `bad` (none after it), and the downloaded segment files are
exactly those of the successful prefix — none are deleted. -/
theorem download_segmented_model_fail_fast (dl : Str → Bool) (total : Nat)
    (pre : List SegEntry) (bad : SegEntry) (post : List SegEntry)
    (hpre : pre.all (fun f => dl f.file) = true) (hbad : dl bad.file = false) :
    download_segmented_model dl total (pre ++ bad :: post) =
      (pre.map SegEntry.file ++ [bad.file], pre.map SegEntry.file, false) := by
  unfold download_segmented_model
  rw [segmentLoop_fail dl pre bad post [] [] hpre hbad]
  simp

open HuggingFaceModelManager in
/-- **C4 witness.** A three-member group whose second member fails: the
third member is never attempted, the first member's file is kept, and the
group is reported failed. -/
theorem download_segmented_model_fail_fast_witness :
    download_segmented_model
      (fun f => !(f == "m-00002-of-00003.safetensors".data)) 3
      [⟨"m-00001-of-00003.safetensors".data, 1, 3⟩,
       ⟨"m-00002-of-00003.safetensors".data, 2, 3⟩,
       ⟨"m-00003-of-00003.safetensors".data, 3, 3⟩] =
      (["m-00001-of-00003.safetensors".data, "m-00002-of-00003.safetensors".data],
       ["m-00001-of-00003.safetensors".data], false) :=
  download_segmented_model_fail_fast
    (fun f => !(f == "m-00002-of-00003.safetensors".data)) 3
    [⟨"m-00001-of-00003.safetensors".data, 1, 3⟩]
    ⟨"m-00002-of-00003.safetensors".data, 2, 3⟩
    [⟨"m-00003-of-00003.safetensors".data, 3, 3⟩]
    (by decide) (by decide)

open HuggingFaceModelManager in
/-- Loop invariant for `directLoop`: the trace extends `results` with one
outcome per file in order, and the final flag is the running flag conjoined
with all per-file outcomes. -/
theorem directLoop_spec (dl : Str → Bool) (files : List Str) (s : Bool)
    (res : List (Str × Bool)) :
    directLoop dl files s res =
      (res ++ files.map (fun f => (f, dl f)), s && files.all dl) := by
  induction files generalizing s res with
  | nil => simp [directLoop]
  | cons f rest ih =>
    by_cases h : dl f = true
    · rw [show directLoop dl (f :: rest) s res
            = directLoop dl rest s (res ++ [(f, true)]) from by simp [directLoop, h]]
      rw [ih]
      simp [h, Bool.and_assoc]
    · rw [Bool.not_eq_true] at h
      rw [show directLoop dl (f :: rest) s res
            = directLoop dl rest false (res ++ [(f, false)]) from by simp [directLoop, h]]
      rw [ih]
      simp [h]

open HuggingFaceModelManager in
/-- **C5.** Per-file failure isolation in direct downloads: every file of
the manifest appears in the outcome trace with its own result (no failure
aborts the sibling files), and the aggregate boolean is `true` iff every
attempted file succeeded. -/
theorem download_model_files_isolated (dl : Str → Bool) (files : List Str) :
    (download_model_files dl files).1 = files.map (fun f => (f, dl f)) ∧
    ((download_model_files dl files).2 = true ↔ ∀ f ∈ files, dl f = true) := by
  unfold download_model_files
  rw [directLoop_spec]
  refine ⟨by simp, ?_⟩
  simp [List.all_eq_true]

open HuggingFaceModelManager in
/-- **C5 witness.** A two-file manifest whose first file fails: the second
file is still attempted (it appears in the trace with result `true`) and
the aggregate result is `false`. -/
theorem download_model_files_isolated_witness :
    (download_model_files (fun f => !(f == "a.safetensors".data))
        ["a.safetensors".data, "b.safetensors".data]).1 =
      [("a.safetensors".data, false), ("b.safetensors".data, true)] ∧
    (download_model_files (fun f => !(f == "a.safetensors".data))
        ["a.safetensors".data, "b.safetensors".data]).2 = false := by
  have h := download_model_files_isolated (fun f => !(f == "a.safetensors".data))
    ["a.safetensors".data, "b.safetensors".data]
  refine ⟨by rw [h.1]; decide, ?_⟩
  have h2 := h.2
  rcases hb : (download_model_files (fun f => !(f == "a.safetensors".data))
      ["a.safetensors".data, "b.safetensors".data]).2 with _ | _
  · rfl
  · exfalso
    rw [hb] at h2
    have := (h2.mp rfl) "a.safetensors".data (by simp)
    simp at this

open CivitaiModelManager in
/-- String lists survive the JSON encode/decode cycle. -/
theorem decodeStrList_map_str (tags : List Str) :
    decodeStrList (tags.map JValue.str) = some tags := by
  induction tags with
  | nil => rfl
  | cons t rest ih => simp [decodeStrList, ih]

open CivitaiModelManager in
/-- A provenance record survives serialization: parsing the written JSON
object restores every field. -/
theorem metadata_fromJson_toJson (m : Metadata) :
    Metadata.fromJson m.toJson = some m := by
  have l01 : m.toJson.lookup "civitai_model_id".data
      = some (encodeOptInt m.civitai_model_id) := rfl
  have l02 : m.toJson.lookup "civitai_version_id".data
      = some (encodeOptInt m.civitai_version_id) := rfl
  have l03 : m.toJson.lookup "model_name".data = some (encodeOptStr m.model_name) := rfl
  have l04 : m.toJson.lookup "model_type".data = some (encodeOptStr m.model_type) := rfl
  have l05 : m.toJson.lookup "version_name".data = some (encodeOptStr m.version_name) := rfl
  have l06 : m.toJson.lookup "file_name".data = some (encodeOptStr m.file_name) := rfl
  have l07 : m.toJson.lookup "file_size".data = some (JValue.num m.file_size) := rfl
  have l08 : m.toJson.lookup "download_date".data = some (JValue.str m.download_date) := rfl
  have l09 : m.toJson.lookup "description".data = some (JValue.str m.description) := rfl
  have l10 : m.toJson.lookup "tags".data = some (JValue.arr (m.tags.map JValue.str)) := rfl
  have l11 : m.toJson.lookup "creator".data = some (JValue.str m.creator) := rfl
  have l12 : m.toJson.lookup "nsfw".data = some (JValue.bool m.nsfw) := rfl
  unfold Metadata.fromJson
  rw [l01, l02, l03, l04, l05, l06, l07, l08, l09, l10, l11, l12]
  rcases m with ⟨mid, vid, mname, mtype, vname, fname, fsize, ddate, descr, tags, creator, nsfw⟩
  rcases mid with _ | mid <;> rcases vid with _ | vid <;>
    rcases mname with _ | mname <;> rcases mtype with _ | mtype <;>
    rcases vname with _ | vname <;> rcases fname with _ | fname <;>
    simp only [encodeOptInt, encodeOptStr, decodeOptInt, decodeOptStr, decodeInt,
      decodeStr, decodeBool, decodeTags, decodeStrList_map_str, Option.some_bind]

open CivitaiModelManager in
/-- **C8.** Provenance round-trip: a record written by `_save_metadata` as
the sidecar of an artifact path is returned field-for-field equal by
`get_model_metadata` for the same path. -/
theorem save_metadata_roundtrip (fs : JsonStore) (file_path : Str) (m : Metadata) :
    get_model_metadata (save_metadata fs file_path m) file_path = some m := by
  unfold get_model_metadata save_metadata
  rw [show (((metadataPath file_path, m.toJson) :: fs).lookup (metadataPath file_path))
        = some m.toJson from by simp [List.lookup]]
  exact metadata_fromJson_toJson m

/-- **C7 counterexample.** For the unknown category `"totally_unknown"`,
the Hugging Face `get_model_directory` does not surface an error: it
substitutes the `checkpoints` directory of another category. -/
theorem hf_get_model_directory_unknown_fallback_cex :
    sampleFolderConfig.lookup "totally_unknown".data = none ∧
    HuggingFaceModelManager.get_model_directory sampleFolderConfig "totally_unknown".data
      = .ok "/comfy/models/checkpoints".data :=
  ⟨by decide, rfl⟩

/-- **C7 (amended).** For an unknown category, the Civitai
`get_model_directory` raises (surfaces an error, never guessing a path),
while the Hugging Face `get_model_directory` instead falls back to the
`checkpoints` entry, behaving exactly as if `"checkpoints"` had been
requested. -/
theorem get_model_directory_unknown_category (cfg : List (Str × List Str)) (t : Str)
    (h : cfg.lookup t = none) :
    CivitaiModelManager.get_model_directory cfg t
      = .error ("Unknown model type: ".data ++ t) ∧
    HuggingFaceModelManager.get_model_directory cfg t
      = HuggingFaceModelManager.get_model_directory cfg "checkpoints".data := by
  constructor
  · unfold CivitaiModelManager.get_model_directory
    rw [h]
  · unfold HuggingFaceModelManager.get_model_directory
    rw [h]
    rcases h2 : cfg.lookup "checkpoints".data with _ | ps
    · rfl
    · rcases ps with _ | ⟨p, rest⟩ <;> rfl

/-- **C7 (amended) witness.** The amended theorem at the concrete
configuration and unknown category `"totally_unknown"`. -/
theorem get_model_directory_unknown_category_witness :
    CivitaiModelManager.get_model_directory sampleFolderConfig "totally_unknown".data
      = .error ("Unknown model type: ".data ++ "totally_unknown".data) ∧
    HuggingFaceModelManager.get_model_directory sampleFolderConfig "totally_unknown".data
      = HuggingFaceModelManager.get_model_directory sampleFolderConfig "checkpoints".data :=
  get_model_directory_unknown_category sampleFolderConfig "totally_unknown".data (by decide)

open HuggingFaceModelManager in
/-- **C6 counterexample.** Two files share the base name `"model"` but have
the different extensions `"safetensors"` and `"bin"`; `detect_segmented_models`
nevertheless emits them as members of one and the same group (whose
`extension` field records only the first file's extension). -/
theorem detect_segmented_models_mixed_extensions_cex :
    parseSegmentName "model-00001-of-00002.safetensors".data
      = some ("model".data, 1, 2, "safetensors".data) ∧
    parseSegmentName "model-00002-of-00002.bin".data
      = some ("model".data, 2, 2, "bin".data) ∧
    "safetensors".data ≠ "bin".data ∧
    detect_segmented_models
        ["model-00001-of-00002.safetensors".data, "model-00002-of-00002.bin".data]
      = [("model".data,
          { total_segments := 2, extension := "safetensors".data,
            files := [⟨"model-00001-of-00002.safetensors".data, 1, 2⟩,
                      ⟨"model-00002-of-00002.bin".data, 2, 2⟩] })] := by
  refine ⟨by decide, by decide, by decide, by decide⟩

open HuggingFaceModelManager in
/-- Membership in an insertion is membership in the parts. -/
theorem mem_insertSorted (e a : SegEntry) (l : List SegEntry) :
    a ∈ insertSorted e l ↔ a = e ∨ a ∈ l := by
  induction l with
  | nil => simp [insertSorted]
  | cons x xs ih =>
    by_cases h : e.segment < x.segment
    · simp [insertSorted, h]
    · simp [insertSorted, h, ih]
      tauto

open HuggingFaceModelManager in
/-- The stable sort neither adds nor removes members. -/
theorem mem_sortBySegment (a : SegEntry) (l : List SegEntry) :
    a ∈ sortBySegment l ↔ a ∈ l := by
  suffices h : ∀ acc, a ∈ l.foldl (fun acc e => insertSorted e acc) acc ↔ a ∈ acc ∨ a ∈ l by
    have := h []
    simpa [sortBySegment] using this
  induction l with
  | nil => intro acc; simp
  | cons x xs ih =>
    intro acc
    rw [List.foldl_cons, ih (insertSorted x acc), mem_insertSorted]
    simp
    tauto

open HuggingFaceModelManager in
/-- `addToGroup` preserves the base-homogeneity invariant when the inserted
entry parses to the key it is filed under. -/
theorem addToGroup_invariant (acc : List (Str × SegGroup)) (base : Str) (total : Nat)
    (ext : Str) (e : SegEntry)
    (hacc : ∀ b g, (b, g) ∈ acc → ∀ x ∈ g.files,
      ∃ xext, parseSegmentName x.file = some (b, x.segment, x.total, xext))
    (he : parseSegmentName e.file = some (base, e.segment, e.total, ext)) :
    ∀ b g, (b, g) ∈ addToGroup acc base total ext e → ∀ x ∈ g.files,
      ∃ xext, parseSegmentName x.file = some (b, x.segment, x.total, xext) := by
  induction acc with
  | nil =>
    intro b g hg x hx
    simp [addToGroup] at hg
    rcases hg with ⟨hb, hgg⟩
    subst hb
    rw [hgg] at hx
    simp at hx
    subst hx
    exact ⟨ext, he⟩
  | cons p rest ih =>
    intro b g hg x hx
    rw [addToGroup] at hg
    by_cases hk : (p.1 == base) = true
    · rw [if_pos hk] at hg
      rcases List.mem_cons.mp hg with hg | hg
      · obtain ⟨hb, hgg⟩ := Prod.mk.inj hg
        rw [hgg] at hx
        simp at hx
        rcases hx with hx | hx
        · rw [hb]
          exact hacc p.1 p.2 (by simp) x hx
        · subst hx
          have hbase : b = base := by rw [hb]; simpa using hk
          rw [hbase]
          exact ⟨ext, he⟩
      · exact hacc b g (by simp [hg]) x hx
    · rw [if_neg hk] at hg
      rcases List.mem_cons.mp hg with hg | hg
      · obtain ⟨hb, hgg⟩ := Prod.mk.inj hg
        rw [hgg] at hx
        rw [hb]
        exact hacc p.1 p.2 (by simp) x hx
      · exact ih (fun b' g' hg' => hacc b' g' (by simp [hg'])) b g hg x hx

open HuggingFaceModelManager in
/-- `detectLoop` preserves the base-homogeneity invariant. -/
theorem detectLoop_invariant (files : List Str) (acc : List (Str × SegGroup))
    (hacc : ∀ b g, (b, g) ∈ acc → ∀ x ∈ g.files,
      ∃ xext, parseSegmentName x.file = some (b, x.segment, x.total, xext)) :
    ∀ b g, (b, g) ∈ detectLoop files acc → ∀ x ∈ g.files,
      ∃ xext, parseSegmentName x.file = some (b, x.segment, x.total, xext) := by
  induction files generalizing acc with
  | nil => simpa [detectLoop] using hacc
  | cons f rest ih =>
    rw [detectLoop]
    rcases hp : parseSegmentName f with _ | r
    · exact ih acc hacc
    · rcases r with ⟨base, seg, total, ext⟩
      exact ih (addToGroup acc base total ext ⟨f, seg, total⟩)
        (addToGroup_invariant acc base total ext ⟨f, seg, total⟩ hacc hp)

open HuggingFaceModelManager in
/-- **C6 (amended).** Segment groups are homogeneous in `base_name` only:
every member of a group returned by `detect_segmented_models` parses under
the segment-naming grammar to the group's key as its `base_name` (with its
recorded segment number and total), but members' extensions may differ -
files sharing a base name are grouped regardless of extension. -/
theorem detect_segmented_models_base_homogeneous (files : List Str) (b : Str)
    (g : SegGroup) (hg : (b, g) ∈ detect_segmented_models files) :
    ∀ x ∈ g.files, ∃ xext,
      parseSegmentName x.file = some (b, x.segment, x.total, xext) := by
  intro x hx
  unfold detect_segmented_models at hg
  rcases List.mem_map.mp hg with ⟨⟨b', g'⟩, hmem, heq⟩
  obtain ⟨hb, hgg⟩ := Prod.mk.inj heq
  rw [← hgg] at hx
  simp only at hx
  rw [mem_sortBySegment] at hx
  rw [← hb]
  exact detectLoop_invariant files [] (by simp) b' g' hmem x hx

open HuggingFaceModelManager in
/-- **C6 (amended) witness.** The homogeneity theorem at the concrete
two-file group of the counterexample: the second member parses to the
group's base name `"model"`. -/
theorem detect_segmented_models_base_homogeneous_witness :
    ∃ xext, parseSegmentName "model-00002-of-00002.bin".data
      = some ("model".data, (2 : Nat), (2 : Nat), xext) :=
  detect_segmented_models_base_homogeneous
    ["model-00001-of-00002.safetensors".data, "model-00002-of-00002.bin".data]
    "model".data
    { total_segments := 2, extension := "safetensors".data,
      files := [⟨"model-00001-of-00002.safetensors".data, 1, 2⟩,
                ⟨"model-00002-of-00002.bin".data, 2, 2⟩] }
    (by decide)
    ⟨"model-00002-of-00002.bin".data, 2, 2⟩ (by decide)

/-- `takeWhile`/`dropWhile` split an append at the first failing element. -/
theorem takeWhile_append_stop {α : Type} (p : α → Bool) (xs : List α) (y : α) (ys : List α)
    (hxs : ∀ x ∈ xs, p x = true) (hy : p y = false) :
    (xs ++ y :: ys).takeWhile p = xs ∧ (xs ++ y :: ys).dropWhile p = y :: ys := by
  induction xs with
  | nil => simp [List.takeWhile_cons, List.dropWhile_cons, hy]
  | cons a t ih =>
    have ha : p a = true := hxs a (by simp)
    have ht := ih (fun x hx => hxs x (by simp [hx]))
    simp [List.takeWhile_cons, List.dropWhile_cons, ha, ht.1, ht.2]

/-- `takeWhile` keeps a list all of whose elements satisfy the predicate. -/
theorem takeWhile_eq_self_of_all {α : Type} (p : α → Bool) (xs : List α)
    (h : ∀ x ∈ xs, p x = true) : xs.takeWhile p = xs := by
  induction xs with
  | nil => rfl
  | cons a t ih =>
    simp [List.takeWhile_cons, h a (by simp), ih (fun x hx => h x (by simp [hx]))]

/-- Stripping a literal prefix from a string that carries it. -/
theorem stripPfx_append (p s : Str) : stripPfx p (p ++ s) = some s := by
  unfold stripPfx
  rw [if_pos]
  · rw [List.drop_left]
  · rw [List.isPrefixOf_iff_prefix]
    exact List.prefix_append p s

/-- Right-stripping does nothing when the last element fails the
predicate. -/
theorem dropWhile_reverse_concat {α : Type} (p : α → Bool) (s : List α) (c : α)
    (hc : p c = false) : ((s ++ [c]).reverse.dropWhile p).reverse = s ++ [c] := by
  simp [List.reverse_append, List.dropWhile_cons, hc]

/-- A digit character is not Python whitespace. -/
theorem isDigit_not_pySpace {c : Char} (h : c.isDigit = true) : isPySpace c = false := by
  by_contra h'
  have hsp : isPySpace c = true := by simpa using h'
  simp [isPySpace] at hsp
  rcases hsp with ((((h1 | h1) | h1) | h1) | h1) | h1 <;> subst h1 <;> simp at h

/-- A digit character is not a slash. -/
theorem isDigit_not_slash {c : Char} (h : c.isDigit = true) : (c == '/') = false := by
  by_contra h'
  have hsl : c = '/' := by simpa using h'
  subst hsl
  simp at h

/-- `strip()` then `rstrip('/')` leave a string unchanged when its first
character is not whitespace and its last character is neither whitespace
nor a slash. -/
theorem normalize_eq_self (u B : Str) (c : Char) (hu : u = B ++ [c])
    (hfirst : ∃ a rest, u = a :: rest ∧ isPySpace a = false)
    (hcsp : isPySpace c = false) (hcsl : (c == '/') = false) :
    rstripSlash (pyStrip u) = u := by
  have step1 : u.dropWhile isPySpace = u := by
    obtain ⟨a, rest, hco, ha⟩ := hfirst
    rw [hco]
    simp [List.dropWhile_cons, ha]
  have hstrip : pyStrip u = u := by
    unfold pyStrip
    rw [step1, hu]
    exact dropWhile_reverse_concat isPySpace B c hcsp
  rw [hstrip]
  unfold rstripSlash
  rw [hu]
  exact dropWhile_reverse_concat (fun x => x == '/') B c hcsl

namespace CivitaiURLParser

/-- The version pattern cannot match at a position that does not start
with `c`. -/
theorem matchVersionAt_ne_c (c : Char) (rest : Str) (h : (c == 'c') = false) :
    matchVersionAt (c :: rest) = none := by
  have hne : c ≠ 'c' := beq_eq_false_iff_ne.mp h
  have h' : ('c' == c) = false := beq_eq_false_iff_ne.mpr (Ne.symm hne)
  unfold matchVersionAt stripPfx
  rw [show ("civitai.com/models/".data.isPrefixOf (c :: rest))
        = (('c' == c) && ("ivitai.com/models/".data.isPrefixOf rest)) from rfl, h']
  simp

/-- One search step over a position that cannot start a version match. -/
theorem searchVersion_cons_ne (c : Char) (rest : Str) (h : (c == 'c') = false) :
    searchVersion (c :: rest) = searchVersion rest := by
  rw [show searchVersion (c :: rest)
        = (match matchVersionAt (c :: rest) with
           | some r => some r
           | none => searchVersion rest) from rfl,
      matchVersionAt_ne_c c rest h]

/-- The search skips any prefix free of the character `c`. -/
theorem searchVersion_append_no_c (pre s : Str) (hpre : ∀ c ∈ pre, (c == 'c') = false) :
    searchVersion (pre ++ s) = searchVersion s := by
  induction pre with
  | nil => rfl
  | cons a t ih =>
    rw [List.cons_append, searchVersion_cons_ne a (t ++ s) (hpre a (by simp)),
        ih (fun x hx => hpre x (by simp [hx]))]

/-- A successful match attempt at the current position is what the search
returns. -/
theorem searchVersion_eq_of_match (s : Str) (r : Nat × Nat)
    (h : matchVersionAt s = some r) : searchVersion s = some r := by
  cases s with
  | nil =>
    rw [show matchVersionAt [] = none from rfl] at h
    exact Option.noConfusion h
  | cons c rest =>
    rw [show searchVersion (c :: rest)
          = (match matchVersionAt (c :: rest) with
             | some x => some x
             | none => searchVersion rest) from rfl, h]

/-- The version pattern matches a well-shaped
`civitai.com/models/<id>/<slug>/versions/<vid>` suffix, capturing the two
digit runs. -/
theorem matchVersionAt_shape (d1 slug d2 : Str)
    (hd1ne : d1 ≠ []) (hd1dig : ∀ c ∈ d1, c.isDigit = true)
    (hslugne : slug ≠ []) (hslug : ∀ c ∈ slug, (c == '/') = false)
    (hd2ne : d2 ≠ []) (hd2dig : ∀ c ∈ d2, c.isDigit = true) :
    matchVersionAt ("civitai.com/models/".data
        ++ (d1 ++ ('/' :: (slug ++ ("/versions/".data ++ d2)))))
      = some (digitsVal d1, digitsVal d2) := by
  obtain ⟨a1, t1, rfl⟩ := List.exists_cons_of_ne_nil hd1ne
  obtain ⟨a2, t2, rfl⟩ := List.exists_cons_of_ne_nil hslugne
  obtain ⟨a3, t3, rfl⟩ := List.exists_cons_of_ne_nil hd2ne
  have ht1 := takeWhile_append_stop Char.isDigit (a1 :: t1) '/'
    ((a2 :: t2) ++ ("/versions/".data ++ (a3 :: t3))) hd1dig (by decide)
  have ht2 := takeWhile_append_stop (fun c => !(c == '/')) (a2 :: t2) '/'
    ("versions/".data ++ (a3 :: t3)) (fun x hx => by simp [hslug x hx]) (by decide)
  have ht3 := takeWhile_eq_self_of_all Char.isDigit (a3 :: t3) hd2dig
  unfold matchVersionAt
  rw [stripPfx_append, Option.some_bind]
  dsimp only
  rw [ht1.1, ht1.2]
  simp only [List.isEmpty_cons, List.head?_cons, List.tail_cons, bne_self_eq_false,
    Bool.false_eq_true, if_false]
  rw [show ("/versions/".data ++ (a3 :: t3)) = '/' :: ("versions/".data ++ (a3 :: t3)) from rfl]
  rw [ht2.1, ht2.2]
  simp only [List.isEmpty_cons, Bool.false_eq_true, if_false]
  rw [show ('/' :: ("versions/".data ++ (a3 :: t3))) = "/versions/".data ++ (a3 :: t3) from rfl,
      stripPfx_append, Option.some_bind]
  rw [ht3]
  simp only [List.isEmpty_cons, Bool.false_eq_true, if_false]

/-- **C2.** Version-specific URL precedence: every URL of the shape
`https://civitai.com/models/<id>/<slug>/versions/<vid>` (nonempty digit
runs for `<id>` and `<vid>`, nonempty slash-free `<slug>`) is parsed by
`parse_civitai_url` into model id `<id>` and version id `<vid>` with
`url_type = "version"`: the version pattern is tried, and matches, before
the model-only pattern ever gets a chance, so such a URL is never
classified as item-only. -/
theorem parse_civitai_url_version_precedence (d1 slug d2 : Str)
    (hd1ne : d1 ≠ []) (hd1dig : ∀ c ∈ d1, c.isDigit = true)
    (hslugne : slug ≠ []) (hslug : ∀ c ∈ slug, (c == '/') = false)
    (hd2ne : d2 ≠ []) (hd2dig : ∀ c ∈ d2, c.isDigit = true) :
    parse_civitai_url (mkVersionURL d1 slug d2)
      = some ⟨some (digitsVal d1), some (digitsVal d2), "version".data⟩ := by
  obtain ⟨ds2, c2, hcat⟩ : ∃ L b, d2 = L ++ [b] := by
    rcases d2.eq_nil_or_concat with h | ⟨L, b, h⟩
    · exact absurd h hd2ne
    · exact ⟨L, b, by simpa using h⟩
  have hc2dig : c2.isDigit = true := hd2dig c2 (by simp [hcat])
  have hnorm : rstripSlash (pyStrip (mkVersionURL d1 slug d2)) = mkVersionURL d1 slug d2 := by
    refine normalize_eq_self _ ("https://civitai.com/models/".data
        ++ (d1 ++ ('/' :: (slug ++ ("/versions/".data ++ ds2))))) c2 ?_
      ⟨'h', _, rfl, by decide⟩ (isDigit_not_pySpace hc2dig) (isDigit_not_slash hc2dig)
    rw [show mkVersionURL d1 slug d2 = "https://civitai.com/models/".data
          ++ (d1 ++ ('/' :: (slug ++ ("/versions/".data ++ d2)))) from rfl, hcat]
    simp
  have hsv : searchVersion (mkVersionURL d1 slug d2)
      = some (digitsVal d1, digitsVal d2) := by
    rw [show mkVersionURL d1 slug d2 = "https://".data ++ ("civitai.com/models/".data
          ++ (d1 ++ ('/' :: (slug ++ ("/versions/".data ++ d2))))) from rfl]
    rw [searchVersion_append_no_c "https://".data _ (by decide)]
    exact searchVersion_eq_of_match _ _
      (matchVersionAt_shape d1 slug d2 hd1ne hd1dig hslugne hslug hd2ne hd2dig)
  unfold parse_civitai_url
  dsimp only
  rw [hnorm, hsv]

/-- **C2 witness.** The concrete URL
`https://civitai.com/models/12/my-model/versions/345` parses to model id
12 and version id 345 with type `"version"`. -/
theorem parse_civitai_url_version_precedence_witness :
    parse_civitai_url (mkVersionURL "12".data "my-model".data "345".data)
      = some ⟨some 12, some 345, "version".data⟩ := by
  have h := parse_civitai_url_version_precedence "12".data "my-model".data "345".data
    (by decide) (by decide) (by decide) (by decide) (by decide) (by decide)
  rw [show (12 : Nat) = digitsVal "12".data from by decide,
      show (345 : Nat) = digitsVal "345".data from by decide]
  exact h

end CivitaiURLParser
